import Mathlib

/-!
# gocore: logger pipeline and random helpers

A shallow embedding of `logger/logger.go` (the facade, the body of the consumer
loop of `Logger.run`, `cleanup`, `fileWithLineNum`, `ignoreWriteFile`) and of
`random/random.go` (`IntRange`), followed by the properties established about
them.

Conventions of the embedding:

* a call `l.writer.Printf(format, args...)` is recorded as `Effect.writer format args`,
  a call `l.fileWriter.Printf(format, args...)` as `Effect.fileWriter format args` and a
  call `l.notifier.Send(title, body)` as `Effect.notifier title body`; the loop body
  returns the list of calls it makes, in program order;
* `time.Now().Format(..)` and the runtime call stack are inputs of the facade;
* `fmt.Sprintf` is the Go standard library; `Sprintf` below models its behaviour for
  the verbs `%v`, `%s`, `%d` and the escape `%%` (no flags, widths or precisions).
-/

namespace Gocore

/-! ## Data model -/

/-- Modelled from the spec: the declaration of `LogLevel` is not part of the
available sources; the spec lists the levels Debug, Info, Warn, Error. -/
inductive LogLevel where
  | Debug
  | Info
  | Warn
  | Error
deriving DecidableEq, Repr

/-- Modelled from the spec: the declaration of `valueType` is not part of the
available sources; the spec lists the modes Custom, Interface, JSON. -/
inductive valueType where
  | valueTypeCustom
  | valueTypeInterface
  | valueTypeJSON
deriving DecidableEq, Repr

/-- A Go value passed as `interface{}` to a logging call: strings and integers. -/
inductive Value where
  | str (s : String)
  | int (n : Int)
deriving DecidableEq, Repr

/-- Modelled from the spec: the request metadata attached by `withEchoContext` is an
opaque value with a rendering, the string `formatRequestInfo()` returns for it. -/
structure RequestInfo where
  rendered : String
deriving DecidableEq, Repr

/-- The record `logTask` built by `buildlog` (the back pointer `logger` is left out). -/
structure logTask where
  logLevel : LogLevel
  time : String
  format : String
  values : List Value
  caller : String
  valueType : valueType
  requestInfo : Option RequestInfo
deriving DecidableEq, Repr

/-- Modelled from the spec: `formatRequestInfo` is not part of the available sources;
it renders the attached request metadata. -/
def logTask.formatRequestInfo (data : logTask) : String :=
  match data.requestInfo with
  | some r => r.rendered
  | none => ""

/-- Modelled from the spec: `withEchoContext` is not part of the available sources;
it attaches the request metadata extracted from the HTTP context. -/
def logTask.withEchoContext (data : logTask) (c : RequestInfo) : logTask :=
  { data with requestInfo := some c }

/-- The destinations a `Writer` handle can denote: the standard output logger
created by `New`, the discarding logger created by `New`, or the writer supplied
in the configuration. -/
inductive Writer where
  | stdout
  | discard
  | configured
deriving DecidableEq, Repr

/-- The struct `Config` (the time zone is left out: timestamps are inputs). -/
structure Config where
  BufferedSize : Nat
  Colorful : Bool
  DateFormat : String
  Prefix : String
  Writer : Option Writer
  WriteFileExceptLevels : List LogLevel
  Notifier : Bool
deriving DecidableEq, Repr

/-- The colour helpers `Green`, `Blue`, `Yellow`, `Red`, which are not part of the
available sources, taken as a parameter. -/
structure Palette where
  Green : String → String
  Blue : String → String
  Yellow : String → String
  Red : String → String

/-- The JSON helpers `ToJSONString` and `ToPrettyJSONString`, which are not part of
the available sources, taken as a parameter. -/
structure JSONCodec where
  ToJSONString : Value → String
  ToPrettyJSONString : Value → String

/-- The struct `Logger`: configuration, the two sinks, the eight level templates and
whether a notifier is set (`notifier != nil`). -/
structure Logger where
  config : Config
  writer : Writer
  fileWriter : Writer
  debugStr : String
  debugColorStr : String
  infoStr : String
  infoColorStr : String
  warnStr : String
  warnColorStr : String
  errStr : String
  errColorStr : String
  notifier : Bool

/-- The constructor `New`: defaults for a missing configuration, sinks and the
level templates. -/
def New (p : Palette) (config : Option Config) : Logger :=
  let bufferedSize := 10
  let dateFormat := "2006-01-02 15:04:05 Z07:00"
  let defaultConfig : Config :=
    match config with
    | some c => c
    | none =>
      { Prefix := "", BufferedSize := bufferedSize, DateFormat := dateFormat,
        Colorful := true, Notifier := false, Writer := none,
        WriteFileExceptLevels := [] }
  let defaultConfig :=
    if defaultConfig.BufferedSize = 0 then { defaultConfig with BufferedSize := bufferedSize }
    else defaultConfig
  let defaultConfig :=
    if defaultConfig.DateFormat = "" then { defaultConfig with DateFormat := dateFormat }
    else defaultConfig
  let writer := Writer.stdout
  let fileWriter :=
    match defaultConfig.Writer with
    | some w => w
    | none => Writer.discard
  { config := defaultConfig
    writer := writer
    fileWriter := fileWriter
    debugStr := "%s DEBUG %s "
    infoStr := "%s INFO %s "
    warnStr := "%s WARN %s "
    errStr := "%s ERROR %s "
    debugColorStr := "%s " ++ p.Green "DEBUG %s\n"
    infoColorStr := "%s " ++ p.Blue "INFO %s\n"
    warnColorStr := "%s " ++ p.Yellow "WARN %s\n"
    errColorStr := "%s " ++ p.Red "ERROR %s\n"
    notifier := defaultConfig.Notifier }

/-! ## Formatting (`strconv.FormatInt`, `fmt.Sprintf`) -/

/-- The call `strconv.FormatInt(n, 10)`. -/
def FormatInt (n : Int) : String :=
  if n < 0 then "-" ++ Nat.repr n.natAbs else Nat.repr n.natAbs

/-- The Go type name of a value, as printed in formatting diagnostics. -/
def Value.typeName : Value → String
  | .str _ => "string"
  | .int _ => "int"

/-- The default (`%v`) rendering of a value. -/
def Value.render : Value → String
  | .str s => s
  | .int n => FormatInt n

/-- Rendering of one argument under the verb `c`. -/
def verbArg (c : Char) (v : Value) : String :=
  if c = 'v' then v.render
  else match v with
    | .str s =>
      if c = 's' then s else "%!" ++ c.toString ++ "(string=" ++ s ++ ")"
    | .int n =>
      if c = 'd' then FormatInt n else "%!" ++ c.toString ++ "(int=" ++ FormatInt n ++ ")"

/-- The diagnostic appended for arguments no verb consumed. -/
def extraArgs : List Value → String
  | [] => ""
  | a :: as =>
    "%!(EXTRA " ++ ", ".intercalate ((a :: as).map fun v => v.typeName ++ "=" ++ v.render) ++ ")"

/-- The scanner of `fmt.Sprintf` over the characters of the format. -/
def sprintfAux : List Char → List Value → String
  | [], args => extraArgs args
  | c :: rest, args =>
    if c = '%' then
      match rest with
      | [] => "%!(NOVERB)" ++ extraArgs args
      | v :: rest2 =>
        if v = '%' then "%" ++ sprintfAux rest2 args
        else match args with
          | [] => "%!" ++ v.toString ++ "(MISSING)" ++ sprintfAux rest2 []
          | a :: as => verbArg v a ++ sprintfAux rest2 as
    else c.toString ++ sprintfAux rest args

/-- The call `fmt.Sprintf(format, args...)`. -/
def Sprintf (format : String) (args : List Value) : String :=
  sprintfAux format.toList args

/-! ## The body of the consumer loop of `Logger.run` -/

/-- A call made by the loop body: `Printf(format, args...)` on the console sink
`l.writer` or on the secondary sink `l.fileWriter`, or `Send(title, body)` on
`l.notifier`. -/
inductive Effect where
  | writer (format : String) (args : List Value)
  | fileWriter (format : String) (args : List Value)
  | notifier (title : String) (body : String)
deriving DecidableEq, Repr

/-- The loop `for _, lv := range levels` of `ignoreWriteFile`, with its early return. -/
def ignoreWriteFileLoop (level : LogLevel) : List LogLevel → Bool
  | [] => false
  | lv :: rest => if lv = level then true else ignoreWriteFileLoop level rest

/-- The method `ignoreWriteFile`: whether the level is in `WriteFileExceptLevels`. -/
def Logger.ignoreWriteFile (l : Logger) (level : LogLevel) : Bool :=
  ignoreWriteFileLoop level l.config.WriteFileExceptLevels

/-- The local `format` of the loop body: the plain template of the level. -/
def Logger.format (l : Logger) (data : logTask) : String :=
  match data.logLevel with
  | .Debug => l.debugStr
  | .Error => l.errStr
  | .Warn => l.warnStr
  | .Info => l.infoStr

/-- The local `formatColor` of the loop body: the coloured template of the level. -/
def Logger.formatColor (l : Logger) (data : logTask) : String :=
  match data.logLevel with
  | .Debug => l.debugColorStr
  | .Error => l.errColorStr
  | .Warn => l.warnColorStr
  | .Info => l.infoColorStr

/-- The local `separator` of the loop body. -/
def separator (data : logTask) : String :=
  match data.valueType with
  | .valueTypeJSON => "\n"
  | _ => " "

/-- The loop `for i := 0; i < len(values); i++ { acc = "%v" + sep + acc }`. -/
def synthesize (sep : String) (values : List Value) (acc : String) : String :=
  values.foldl (fun acc _ => "%v" ++ sep ++ acc) acc

/-- The local `extraPrettyFormat` of the loop body after the synthesis step. -/
def extraPrettyFormat (data : logTask) : String :=
  if data.format = "" then synthesize (separator data) data.values data.format
  else data.format

/-- The local `extraFormat` of the loop body after the synthesis step. -/
def extraFormat (data : logTask) : String :=
  if data.format = "" then synthesize " " data.values data.format
  else data.format

/-- The local `fullFormatColor` of the loop body: the console template. -/
def Logger.fullFormatColor (l : Logger) (data : logTask) : String :=
  let fullFormatColor := l.formatColor data ++ extraPrettyFormat data
  if data.requestInfo.isSome then data.formatRequestInfo ++ "\n" ++ fullFormatColor
  else fullFormatColor

/-- The local `fullFormat` of the loop body: the file template. -/
def Logger.fullFormat (l : Logger) (data : logTask) : String :=
  let fullFormat := l.format data ++ extraFormat data
  if data.requestInfo.isSome then data.formatRequestInfo ++ " " ++ fullFormat
  else fullFormat

/-- The local `titleFormat` of the notifier branches. -/
def Logger.titleFormat (l : Logger) (data : logTask) : String :=
  if data.requestInfo.isSome then data.formatRequestInfo ++ "\n" ++ l.format data
  else l.format data

/-- The loop `for _, value := range data.values` of the JSON branch: the pair
`(values, prettyValues)` it builds by appending. -/
def jsonValues (j : JSONCodec) (vs : List Value) : List Value × List Value :=
  vs.foldl
    (fun acc value =>
      (acc.1 ++ [Value.str (j.ToJSONString value)],
       acc.2 ++ [Value.str (j.ToPrettyJSONString value)]))
    ([], [])

/-- The body of the `case data := <-queue` branch of `Logger.run` for a dequeued
entry: the sink and notifier calls it makes, in order. -/
def Logger.runBody (l : Logger) (j : JSONCodec) (data : logTask) : List Effect :=
  match data.valueType with
  | .valueTypeCustom =>
    [Effect.writer data.format data.values] ++
      (if l.ignoreWriteFile data.logLevel = false then
        [Effect.writer data.format data.values] ++
          (if l.notifier then
            [Effect.notifier (Sprintf (l.titleFormat data) [Value.str data.time])
              (Sprintf data.format data.values)]
          else [])
      else [])
  | .valueTypeJSON =>
    let values := (jsonValues j data.values).1
    let prettyValues := (jsonValues j data.values).2
    [Effect.writer (l.fullFormatColor data)
        ([Value.str data.time, Value.str data.caller] ++ prettyValues)] ++
      (if l.ignoreWriteFile data.logLevel = false then
        [Effect.fileWriter (l.fullFormat data)
            ([Value.str data.time, Value.str data.caller] ++ values)] ++
          (if l.notifier then
            [Effect.notifier
              (Sprintf (l.titleFormat data) [Value.str data.time, Value.str data.caller])
              (Sprintf (extraFormat data) prettyValues)]
          else [])
      else [])
  | .valueTypeInterface =>
    [Effect.writer (l.fullFormatColor data)
        ([Value.str data.time, Value.str data.caller] ++ data.values)] ++
      (if l.ignoreWriteFile data.logLevel = false then
        [Effect.fileWriter (l.fullFormat data)
            ([Value.str data.time, Value.str data.caller] ++ data.values)] ++
          (if l.notifier then
            [Effect.notifier
              (Sprintf (l.titleFormat data) [Value.str data.time, Value.str data.caller])
              (Sprintf (extraFormat data) data.values)]
          else [])
      else [])

/-! ## The facade: `buildlog`, `fileWithLineNum` and the logging operations -/

/-- The loop `for i := 2; i < 15; i++` of `fileWithLineNum`, at counter value `i`
with `left = 15 - i` iterations to go; `Caller i` is the outcome of
`runtime.Caller(i)`: the file and line of frame `i` when the frame exists. -/
def fileWithLineNumFrom (Caller : Nat → Option (String × Int)) : Nat → Nat → String
  | 0, _ => ""
  | left + 1, i =>
    match Caller i with
    | some (file, line) => file ++ ":" ++ FormatInt line
    | none => fileWithLineNumFrom Caller left (i + 1)

/-- The method `fileWithLineNum`. -/
def fileWithLineNum (Caller : Nat → Option (String × Int)) : String :=
  fileWithLineNumFrom Caller (15 - 2) 2

/-- The method `buildlog`; `now f` is `time.Now().Format(f)`. -/
def Logger.buildlog (l : Logger) (now : String → String) (logtype : LogLevel)
    (caller : String) (vt : valueType) (format : String) (values : List Value) : logTask :=
  { logLevel := logtype
    time := now l.config.DateFormat
    format := format
    values := values
    caller := caller
    valueType := vt
    requestInfo := none }

/-- The inputs a facade call reads from its environment: the clock and the runtime
call stack. -/
structure Env where
  now : String → String
  Caller : Nat → Option (String × Int)

/-- The entry sent by `Printf`. -/
def Logger.Printf (l : Logger) (e : Env) (format : String) (values : List Value) : logTask :=
  l.buildlog e.now .Debug "" .valueTypeCustom format values

/-- The entry sent by `Debug`. -/
def Logger.Debug (l : Logger) (e : Env) (values : List Value) : logTask :=
  l.buildlog e.now .Debug (fileWithLineNum e.Caller) .valueTypeInterface "" values

/-- The entry sent by `DebugWithEchoContext`. -/
def Logger.DebugWithEchoContext (l : Logger) (e : Env) (c : RequestInfo)
    (values : List Value) : logTask :=
  (l.buildlog e.now .Debug (fileWithLineNum e.Caller) .valueTypeInterface "" values).withEchoContext c

/-- The entry sent by `Debugf`. -/
def Logger.Debugf (l : Logger) (e : Env) (format : String) (values : List Value) : logTask :=
  l.buildlog e.now .Debug (fileWithLineNum e.Caller) .valueTypeInterface format values

/-- The entry sent by `DebugfWithEchoContext`. -/
def Logger.DebugfWithEchoContext (l : Logger) (e : Env) (c : RequestInfo) (format : String)
    (values : List Value) : logTask :=
  (l.buildlog e.now .Debug (fileWithLineNum e.Caller) .valueTypeInterface format values).withEchoContext c

/-- The entry sent by `DebugJSON`. -/
def Logger.DebugJSON (l : Logger) (e : Env) (values : List Value) : logTask :=
  l.buildlog e.now .Debug (fileWithLineNum e.Caller) .valueTypeJSON "" values

/-- The entry sent by `DebugJSONWithEchoContext`. -/
def Logger.DebugJSONWithEchoContext (l : Logger) (e : Env) (c : RequestInfo)
    (values : List Value) : logTask :=
  (l.buildlog e.now .Debug (fileWithLineNum e.Caller) .valueTypeJSON "" values).withEchoContext c

/-- The entry sent by `Info`. -/
def Logger.Info (l : Logger) (e : Env) (values : List Value) : logTask :=
  l.buildlog e.now .Info (fileWithLineNum e.Caller) .valueTypeInterface "" values

/-- The entry sent by `InfofWithEchoContext`. -/
def Logger.InfofWithEchoContext (l : Logger) (e : Env) (c : RequestInfo) (format : String)
    (values : List Value) : logTask :=
  (l.buildlog e.now .Info (fileWithLineNum e.Caller) .valueTypeInterface format values).withEchoContext c

/-- The entry sent by `Infof`. -/
def Logger.Infof (l : Logger) (e : Env) (format : String) (values : List Value) : logTask :=
  l.buildlog e.now .Info (fileWithLineNum e.Caller) .valueTypeInterface format values

/-- The entry sent by `InfoWithEchoContext` (which takes a format, like
`InfofWithEchoContext`). -/
def Logger.InfoWithEchoContext (l : Logger) (e : Env) (c : RequestInfo) (format : String)
    (values : List Value) : logTask :=
  (l.buildlog e.now .Info (fileWithLineNum e.Caller) .valueTypeInterface format values).withEchoContext c

/-- The entry sent by `InfoJSON`. -/
def Logger.InfoJSON (l : Logger) (e : Env) (values : List Value) : logTask :=
  l.buildlog e.now .Info (fileWithLineNum e.Caller) .valueTypeJSON "" values

/-- The entry sent by `InfoJSONWithEchoContext`. -/
def Logger.InfoJSONWithEchoContext (l : Logger) (e : Env) (c : RequestInfo)
    (values : List Value) : logTask :=
  (l.buildlog e.now .Info (fileWithLineNum e.Caller) .valueTypeJSON "" values).withEchoContext c

/-- The entry sent by `Warn`. -/
def Logger.Warn (l : Logger) (e : Env) (values : List Value) : logTask :=
  l.buildlog e.now .Warn (fileWithLineNum e.Caller) .valueTypeInterface "" values

/-- The entry sent by `WarnWithEchoContext`. -/
def Logger.WarnWithEchoContext (l : Logger) (e : Env) (c : RequestInfo)
    (values : List Value) : logTask :=
  (l.buildlog e.now .Warn (fileWithLineNum e.Caller) .valueTypeInterface "" values).withEchoContext c

/-- The entry sent by `Warnf`. -/
def Logger.Warnf (l : Logger) (e : Env) (format : String) (values : List Value) : logTask :=
  l.buildlog e.now .Warn (fileWithLineNum e.Caller) .valueTypeInterface format values

/-- The entry sent by `WarnfWithEchoContext`. -/
def Logger.WarnfWithEchoContext (l : Logger) (e : Env) (c : RequestInfo) (format : String)
    (values : List Value) : logTask :=
  (l.buildlog e.now .Warn (fileWithLineNum e.Caller) .valueTypeInterface format values).withEchoContext c

/-- The entry sent by `WarnJSON`. -/
def Logger.WarnJSON (l : Logger) (e : Env) (values : List Value) : logTask :=
  l.buildlog e.now .Warn (fileWithLineNum e.Caller) .valueTypeJSON "" values

/-- The entry sent by `WarnJSONWithEchoContext`. -/
def Logger.WarnJSONWithEchoContext (l : Logger) (e : Env) (c : RequestInfo)
    (values : List Value) : logTask :=
  (l.buildlog e.now .Warn (fileWithLineNum e.Caller) .valueTypeJSON "" values).withEchoContext c

/-- The entry sent by `Error`. -/
def Logger.Error (l : Logger) (e : Env) (values : List Value) : logTask :=
  l.buildlog e.now .Error (fileWithLineNum e.Caller) .valueTypeInterface "" values

/-- The entry sent by `ErrorWithEchoContext`. -/
def Logger.ErrorWithEchoContext (l : Logger) (e : Env) (c : RequestInfo)
    (values : List Value) : logTask :=
  (l.buildlog e.now .Error (fileWithLineNum e.Caller) .valueTypeInterface "" values).withEchoContext c

/-- The entry sent by `Errorf`. -/
def Logger.Errorf (l : Logger) (e : Env) (format : String) (values : List Value) : logTask :=
  l.buildlog e.now .Error (fileWithLineNum e.Caller) .valueTypeInterface format values

/-- The entry sent by `ErrorfWithEchoContext`. -/
def Logger.ErrorfWithEchoContext (l : Logger) (e : Env) (c : RequestInfo) (format : String)
    (values : List Value) : logTask :=
  (l.buildlog e.now .Error (fileWithLineNum e.Caller) .valueTypeInterface format values).withEchoContext c

/-- The entry sent by `ErrorJSON`. -/
def Logger.ErrorJSON (l : Logger) (e : Env) (values : List Value) : logTask :=
  l.buildlog e.now .Error (fileWithLineNum e.Caller) .valueTypeJSON "" values

/-- The entry sent by `ErrorJSONWithEchoContext`. -/
def Logger.ErrorJSONWithEchoContext (l : Logger) (e : Env) (c : RequestInfo)
    (values : List Value) : logTask :=
  (l.buildlog e.now .Error (fileWithLineNum e.Caller) .valueTypeJSON "" values).withEchoContext c

/-! ## The dispatcher: queue, cancellation, `cleanup` and the consumer loop -/

/-- Where the consumer goroutine started by `run` stands: in its `for`/`select`
loop, returned through `case <-ctx.Done()`, or stopped by a run-time panic. -/
inductive Consumer where
  | running
  | returned
  | panicked
deriving DecidableEq, Repr

/-- The state of the dispatcher. `queue` is the content of the channel `l.queue`
(oldest first), `closed` whether `close(l.queue)` has run, `cancelled` whether
`cancelFunc` has been called (so `ctx.Done()` is readable), `sendPanicked` whether a
facade call panicked in its channel send. `accepted`, `dispatched` and `effects`
record history: the entries the channel accepted, the entries the consumer received,
and the sink and notifier calls made, each in order. -/
structure Dispatcher where
  queue : List logTask
  closed : Bool
  cancelled : Bool
  consumer : Consumer
  sendPanicked : Bool
  accepted : List logTask
  dispatched : List logTask
  effects : List Effect
deriving DecidableEq, Repr

/-- The atomic steps of the dispatcher. -/
inductive Action where
  | send (data : logTask)
  | cancel
  | cleanup
  | selectDone
  | selectQueue
deriving DecidableEq, Repr

/-- The state in which `New` leaves the dispatcher after `logger.run()`. -/
def Dispatcher.init : Dispatcher :=
  { queue := [], closed := false, cancelled := false, consumer := .running,
    sendPanicked := false, accepted := [], dispatched := [], effects := [] }

/-- Whether the process has been stopped by an unrecovered panic. -/
def Dispatcher.crashed (s : Dispatcher) : Bool :=
  s.sendPanicked || s.consumer == .panicked

/-- One step of the dispatcher, `none` when the step is not enabled (the goroutine
is blocked or gone).

* `send data`: the statement `l.queue <- data` of a facade call. A send on a closed
  channel panics; on an open channel it blocks while the buffer (capacity
  `BufferedSize`) is full.
* `cancel`: a call of `cancelFunc`.
* `cleanup`: the goroutine `cleanup` passes `<-l.context.Done()` and closes the queue.
* `selectDone`: the `select` of the consumer takes `case <-ctx.Done()` and returns.
* `selectQueue`: the `select` takes `case data := <-queue`. With an entry in the
  buffer the body runs on it; on a closed and empty channel the receive yields `nil`
  and the body panics at `data.format`; on an open and empty channel it blocks. -/
def Dispatcher.step (l : Logger) (j : JSONCodec) (s : Dispatcher) : Action → Option Dispatcher
  | .send data =>
    if s.crashed then none
    else if s.closed then some { s with sendPanicked := true }
    else if s.queue.length < l.config.BufferedSize then
      some { s with queue := s.queue ++ [data], accepted := s.accepted ++ [data] }
    else none
  | .cancel =>
    if s.crashed then none else some { s with cancelled := true }
  | .cleanup =>
    if s.crashed then none
    else if s.cancelled && !s.closed then some { s with closed := true }
    else none
  | .selectDone =>
    if s.crashed then none
    else if s.consumer = .running ∧ s.cancelled = true then some { s with consumer := .returned }
    else none
  | .selectQueue =>
    if s.crashed then none
    else if s.consumer = .running then
      match s.queue with
      | data :: rest =>
        some { s with queue := rest, dispatched := s.dispatched ++ [data],
                      effects := s.effects ++ l.runBody j data }
      | [] => if s.closed then some { s with consumer := .panicked } else none
    else none

/-- A run of the dispatcher: the steps of `acts` from `s`, `none` if one of them is
not enabled. -/
def Dispatcher.exec (l : Logger) (j : JSONCodec) (s : Dispatcher) : List Action → Option Dispatcher
  | [] => some s
  | a :: rest =>
    match s.step l j a with
    | some t => t.exec l j rest
    | none => none

/-- The outcome of the receive `data := <-queue` in state `s`: `none` when the
receive blocks (open and empty channel), `some (some d)` when it yields the oldest
queued entry `d`, `some none` when it yields `nil` (closed and empty channel). -/
def Dispatcher.receive (s : Dispatcher) : Option (Option logTask) :=
  match s.queue with
  | d :: _ => some (some d)
  | [] => if s.closed then some none else none

/-- Whether a call is made on the console sink `l.writer`. -/
def Effect.isWriter : Effect → Bool
  | .writer _ _ => true
  | _ => false

/-- Whether a call is made on the secondary sink `l.fileWriter`. -/
def Effect.isFileWriter : Effect → Bool
  | .fileWriter _ _ => true
  | _ => false

/-- Whether a call is made on the notifier. -/
def Effect.isNotifier : Effect → Bool
  | .notifier _ _ => true
  | _ => false

/-- The string a sink call renders, `fmt.Sprintf(format, args...)`; for a notifier
call, its body. -/
def Effect.rendered : Effect → String
  | .writer format args => Sprintf format args
  | .fileWriter format args => Sprintf format args
  | .notifier _ body => body

/-- The console writes among the calls `es`. -/
def consoleWrites (es : List Effect) : List Effect :=
  es.filter Effect.isWriter

/-- The secondary-sink writes among the calls `es`. -/
def fileWrites (es : List Effect) : List Effect :=
  es.filter Effect.isFileWriter

/-- The notifier deliveries among the calls `es`. -/
def notifications (es : List Effect) : List Effect :=
  es.filter Effect.isNotifier

/-! ## `random.IntRange` -/

/-- Conversion to the 64-bit `int` of Go: wrap-around into `[-2^63, 2^63)`. -/
def wrap64 (x : Int) : Int :=
  (x + 2 ^ 63) % 2 ^ 64 - 2 ^ 63

/-- The function `IntRange`. `randInt n` is the outcome of
`rand.Int(rand.Reader, big.NewInt(n))`: `some b` for a drawn number, `none` for an
error of the random source. The call panics (here `Except.error`) when its bound is
not positive. -/
def IntRange (randInt : Int → Option Int) (min max : Int) : Except String Int :=
  let result : Int := 0
  let minValue := min
  let maxValue := max
  let (_minValue, _maxValue) := if minValue > maxValue then (max, min) else (minValue, maxValue)
  if max = min then .ok max
  else if max > min then
    let maxRand := wrap64 (max - min)
    if maxRand ≤ 0 then .error "crypto/rand: argument to Int is <= 0"
    else
      match randInt maxRand with
      | some b => .ok (wrap64 (min + wrap64 b))
      | none => .ok result
  else .ok result

/-! ## Sample inputs -/

/-- A palette that marks the coloured part with a tag. -/
def samplePalette : Palette :=
  { Green := fun s => "<green>" ++ s ++ "</green>"
    Blue := fun s => "<blue>" ++ s ++ "</blue>"
    Yellow := fun s => "<yellow>" ++ s ++ "</yellow>"
    Red := fun s => "<red>" ++ s ++ "</red>" }

/-- A JSON codec for strings and integers: compact values as they are, pretty values
on a line of their own. -/
def sampleCodec : JSONCodec :=
  { ToJSONString := fun v => v.render
    ToPrettyJSONString := fun v => v.render ++ "\n" }

/-- A configuration with queue capacity 1, a secondary sink, no excluded level and no
notifier. -/
def sampleConfig : Config :=
  { BufferedSize := 1, Colorful := true, DateFormat := "", Prefix := "",
    Writer := some Writer.configured, WriteFileExceptLevels := [], Notifier := false }

/-- An environment with a fixed clock and a call stack whose frames all resolve. -/
def sampleEnv : Env :=
  { now := fun _ => "2024-05-01 10:00:00 +07:00"
    Caller := fun i => some ("main.go", (i : Int) + 5) }

/-- The logger built from `sampleConfig`. -/
def sampleLogger : Logger :=
  New samplePalette (some sampleConfig)

/-- The logger built from `sampleConfig` with a notifier and the level Debug excluded
from the secondary sink. -/
def sampleLoggerExceptDebug : Logger :=
  New samplePalette
    (some { sampleConfig with WriteFileExceptLevels := [LogLevel.Debug], Notifier := true })

/-- A run of the dispatcher: two entries are sent, the first is dispatched, then
cancellation is requested and the consumer returns. -/
def sampleRun : List Action :=
  [Action.send (sampleLogger.Info sampleEnv [Value.str "one"]), Action.selectQueue,
    Action.send (sampleLogger.Info sampleEnv [Value.str "two"]), Action.cancel,
    Action.selectDone]

/-- The state in which `sampleRun` ends. -/
def sampleRunEnd : Dispatcher :=
  { queue := [sampleLogger.Info sampleEnv [Value.str "two"]]
    closed := false
    cancelled := true
    consumer := Consumer.returned
    sendPanicked := false
    accepted := [sampleLogger.Info sampleEnv [Value.str "one"],
      sampleLogger.Info sampleEnv [Value.str "two"]]
    dispatched := [sampleLogger.Info sampleEnv [Value.str "one"]]
    effects := sampleLogger.runBody sampleCodec (sampleLogger.Info sampleEnv [Value.str "one"]) }

/-! ## Properties of the loop body -/

theorem data_charToString (c : Char) : c.toString.data = [c] := rfl

theorem ignoreWriteFileLoop_eq_true_iff (level : LogLevel) (levels : List LogLevel) :
    ignoreWriteFileLoop level levels = true ↔ level ∈ levels := by
  induction levels with
  | nil => simp [ignoreWriteFileLoop]
  | cons lv rest ih =>
    by_cases h : lv = level
    · simp [ignoreWriteFileLoop, h]
    · have h2 : ¬ level = lv := fun h3 => h h3.symm
      simp [ignoreWriteFileLoop, h, h2, ih]

theorem ignoreWriteFile_eq_false_iff (l : Logger) (level : LogLevel) :
    l.ignoreWriteFile level = false ↔ level ∉ l.config.WriteFileExceptLevels := by
  rw [← ignoreWriteFileLoop_eq_true_iff, Logger.ignoreWriteFile]
  simp

/-- For an entry of value type Interface or JSON the loop body makes exactly one
console write, makes a secondary-sink write exactly when the level is not excluded,
and delivers to the notifier exactly when moreover a notifier is set. -/
theorem runBody_dispatch_of_not_custom (l : Logger) (j : JSONCodec) (data : logTask)
    (h : data.valueType ≠ valueType.valueTypeCustom) :
    (consoleWrites (l.runBody j data)).length = 1 ∧
    ((fileWrites (l.runBody j data)).length = 1 ↔
      data.logLevel ∉ l.config.WriteFileExceptLevels) ∧
    ((fileWrites (l.runBody j data)).length = 0 ↔
      data.logLevel ∈ l.config.WriteFileExceptLevels) ∧
    ((notifications (l.runBody j data)).length = 1 ↔
      (data.logLevel ∉ l.config.WriteFileExceptLevels ∧ l.notifier = true)) ∧
    ((notifications (l.runBody j data)).length = 0 ↔
      ¬ (data.logLevel ∉ l.config.WriteFileExceptLevels ∧ l.notifier = true)) := by
  have hx := ignoreWriteFile_eq_false_iff l data.logLevel
  cases hvt : data.valueType with
  | valueTypeCustom => exact absurd hvt h
  | valueTypeInterface =>
    by_cases hi : l.ignoreWriteFile data.logLevel = false <;>
    by_cases hn : l.notifier = true <;>
    have hm := hx.mp <;>
    simp_all [Logger.runBody, consoleWrites, fileWrites, notifications, Effect.isWriter,
      Effect.isFileWriter, Effect.isNotifier]
  | valueTypeJSON =>
    by_cases hi : l.ignoreWriteFile data.logLevel = false <;>
    by_cases hn : l.notifier = true <;>
    simp_all [Logger.runBody, consoleWrites, fileWrites, notifications, Effect.isWriter,
      Effect.isFileWriter, Effect.isNotifier]

/-- For every entry, of any value type, the loop body delivers to the notifier
exactly when the level is not excluded and a notifier is set, and it makes a console
write also when the level is excluded. -/
theorem runBody_notifier_iff (l : Logger) (j : JSONCodec) (data : logTask) :
    ((notifications (l.runBody j data)).length = 1 ↔
      (data.logLevel ∉ l.config.WriteFileExceptLevels ∧ l.notifier = true)) ∧
    1 ≤ (consoleWrites (l.runBody j data)).length := by
  have hx := ignoreWriteFile_eq_false_iff l data.logLevel
  cases hvt : data.valueType <;>
  by_cases hi : l.ignoreWriteFile data.logLevel = false <;>
  by_cases hn : l.notifier = true <;>
  simp_all [Logger.runBody, consoleWrites, fileWrites, notifications, Effect.isWriter,
    Effect.isFileWriter, Effect.isNotifier]

/-- With the exclusion set {Debug} and a notifier, the entry of `Debug("x")` reaches
only the console sink, and the entry of `Error("x")` reaches the console sink, the
secondary sink and the notifier, in this order. -/
theorem runBody_except_debug_example :
    (sampleLoggerExceptDebug.runBody sampleCodec
        (sampleLoggerExceptDebug.Debug sampleEnv [Value.str "x"])).map
        (fun c => (c.isWriter, c.isFileWriter, c.isNotifier)) =
      [(true, false, false)] ∧
    (sampleLoggerExceptDebug.runBody sampleCodec
        (sampleLoggerExceptDebug.Error sampleEnv [Value.str "x"])).map
        (fun c => (c.isWriter, c.isFileWriter, c.isNotifier)) =
      [(true, false, false), (false, true, false), (false, false, true)] := by
  constructor <;> decide

/-- C1, at the entry sent by `Printf("boot")` on a logger that excludes no level:
the level Debug is not in `WriteFileExceptLevels`, yet the loop body makes no call on
the secondary sink `l.fileWriter`; the branch for the Custom value type calls
`l.writer.Printf` a second time instead. -/
theorem runBody_custom_makes_no_file_write (p : Palette) (j : JSONCodec) (e : Env) :
    (New p (some sampleConfig)).ignoreWriteFile LogLevel.Debug = false ∧
    (New p (some sampleConfig)).runBody j ((New p (some sampleConfig)).Printf e "boot" []) =
      [Effect.writer "boot" [], Effect.writer "boot" []] ∧
    fileWrites ((New p (some sampleConfig)).runBody j
      ((New p (some sampleConfig)).Printf e "boot" [])) = [] := by
  refine ⟨?_, ?_, ?_⟩ <;>
  simp [New, sampleConfig, Logger.runBody, Logger.Printf, Logger.buildlog,
    Logger.ignoreWriteFile, ignoreWriteFileLoop, fileWrites, Effect.isFileWriter]

/-- C2, at the entry sent by `Printf("boot")` on a logger that excludes no level: the
loop body makes two console writes for the one dequeued entry, and two such entries
processed in sequence make four. -/
theorem runBody_custom_writes_console_twice (p : Palette) (j : JSONCodec) (e : Env) :
    (consoleWrites ((New p (some sampleConfig)).runBody j
      ((New p (some sampleConfig)).Printf e "boot" []))).length = 2 ∧
    (consoleWrites
      (([(New p (some sampleConfig)).Printf e "boot" [],
          (New p (some sampleConfig)).Printf e "ready" []]).flatMap
        ((New p (some sampleConfig)).runBody j))).length = 4 := by
  constructor <;>
  simp [New, sampleConfig, Logger.runBody, Logger.Printf, Logger.buildlog,
    Logger.ignoreWriteFile, ignoreWriteFileLoop, consoleWrites, Effect.isWriter,
    List.flatMap]

/-! ## Rendering of `Info("hello", 42)` -/

/-- C3, refuted as stated: for `Info("hello", 42)` on the sample logger the line
written to the secondary sink has the level name before the caller location and ends
with a separator; it is not `<timestamp> <file:line> INFO hello 42`. -/
theorem info_file_line_level_before_caller :
    (fileWrites (sampleLogger.runBody sampleCodec
        (sampleLogger.Info sampleEnv [Value.str "hello", Value.int 42]))).map Effect.rendered =
      ["2024-05-01 10:00:00 +07:00 INFO main.go:7 hello 42 "] ∧
    (fileWrites (sampleLogger.runBody sampleCodec
        (sampleLogger.Info sampleEnv [Value.str "hello", Value.int 42]))).map Effect.rendered ≠
      ["2024-05-01 10:00:00 +07:00" ++ " " ++ "main.go:7" ++ " " ++ "INFO" ++ " " ++
        "hello" ++ " " ++ "42"] := by
  constructor <;> decide

/-- C3, amended: on a logger built by `New` with an empty exclusion set, the entry of
`Info("hello", 42)` makes exactly one secondary-sink write, and its line is the
timestamp, the level name INFO, the caller location and the two values, each followed
by a single space: `<timestamp> INFO <file:line> hello 42 `. -/
theorem info_file_line (p : Palette) (cfg : Config) (j : JSONCodec) (e : Env)
    (h : cfg.WriteFileExceptLevels = []) :
    (fileWrites ((New p (some cfg)).runBody j
        ((New p (some cfg)).Info e [Value.str "hello", Value.int 42]))).map Effect.rendered =
      [e.now (New p (some cfg)).config.DateFormat ++ " INFO " ++ fileWithLineNum e.Caller ++
        " hello 42 "] := by
  have h42 : Nat.repr 42 = "42" := by decide
  have hex : (New p (some cfg)).config.WriteFileExceptLevels = [] := by
    simp only [New]
    split_ifs <;> simp [h]
  have hinfo : (New p (some cfg)).infoStr = "%s INFO %s " := rfl
  generalize New p (some cfg) = l at hex hinfo ⊢
  simp [Logger.runBody, Logger.Info, Logger.buildlog, Logger.ignoreWriteFile, hex,
    ignoreWriteFileLoop, fileWrites, Effect.isFileWriter, Effect.rendered, Logger.fullFormat,
    Logger.format, hinfo, extraFormat, synthesize, Sprintf, sprintfAux, verbArg, Value.render,
    extraArgs]
  apply String.ext
  simp [String.data_append, FormatInt, data_charToString, h42]

/-- The amended C3 at the sample logger and environment. -/
theorem info_file_line_witness :
    sampleConfig.WriteFileExceptLevels = [] ∧
    (fileWrites ((New samplePalette (some sampleConfig)).runBody sampleCodec
        ((New samplePalette (some sampleConfig)).Info sampleEnv
          [Value.str "hello", Value.int 42]))).map Effect.rendered =
      [sampleEnv.now (New samplePalette (some sampleConfig)).config.DateFormat ++ " INFO " ++
        fileWithLineNum sampleEnv.Caller ++ " hello 42 "] :=
  ⟨rfl, info_file_line samplePalette sampleConfig sampleCodec sampleEnv rfl⟩

/-! ## The synthesized templates -/

theorem synthesize_data (sep : String) (vs : List Value) (acc : String) :
    (synthesize sep vs acc).data =
      (List.replicate vs.length ("%v" ++ sep).data).flatten ++ acc.data := by
  induction vs generalizing acc with
  | nil => simp [synthesize]
  | cons v rest ih =>
    have hstep : synthesize sep (v :: rest) acc = synthesize sep rest ("%v" ++ sep ++ acc) := rfl
    rw [hstep, ih]
    have hcomm : ∀ (n : Nat) (x : List Char),
        (List.replicate n x).flatten ++ x = x ++ (List.replicate n x).flatten := by
      intro n x
      induction n with
      | zero => simp
      | succ k ihk => simp [List.replicate_succ, ihk]
    have h := hcomm rest.length ("%v" ++ sep).data
    simp only [List.length_cons, List.replicate_succ, List.flatten_cons, String.data_append,
      List.append_assoc] at h ⊢
    rw [← List.append_assoc, ← List.append_assoc, List.append_assoc _ _ sep.data, h]
    simp

theorem synthesize_eq_join (sep : String) (vs : List Value) :
    synthesize sep vs "" = String.join (List.replicate vs.length ("%v" ++ sep)) := by
  apply String.ext
  rw [synthesize_data]
  simp

theorem intercalate_go_data (acc s : String) (as : List String) :
    (String.intercalate.go acc s as).data =
      acc.data ++ (as.map fun a => s.data ++ a.data).flatten := by
  induction as generalizing acc with
  | nil => simp [String.intercalate.go]
  | cons a rest ih => simp [String.intercalate.go, ih, String.data_append]

theorem join_replicate_eq_intercalate (sep x : String) (n : Nat) :
    String.join (List.replicate (n + 1) (x ++ sep)) =
      sep.intercalate (List.replicate (n + 1) x) ++ sep := by
  apply String.ext
  have hshift : ∀ (k : Nat) (a b : List Char),
      (List.replicate k (a ++ b)).flatten ++ a = a ++ (List.replicate k (b ++ a)).flatten := by
    intro k a b
    induction k with
    | zero => simp
    | succ m ihm => simp [List.replicate_succ, ihm]
  simp only [List.replicate_succ, String.intercalate, intercalate_go_data, String.data_append,
    String.data_join, List.map_cons, List.flatten_cons, List.map_replicate, List.append_assoc]
  rw [← hshift]

/-- C4, refuted as stated: for an entry with an empty format and one value the
synthesized file template is the placeholder followed by the separator, not the
placeholders joined by the separator; the same holds for the console template. -/
theorem synthesized_template_not_joined :
    extraFormat
        { logLevel := LogLevel.Info, time := "", format := "", values := [Value.int 1],
          caller := "", valueType := valueType.valueTypeInterface, requestInfo := none } =
      "%v " ∧
    " ".intercalate (List.replicate 1 "%v") = "%v" ∧
    extraFormat
        { logLevel := LogLevel.Info, time := "", format := "", values := [Value.int 1],
          caller := "", valueType := valueType.valueTypeInterface, requestInfo := none } ≠
      " ".intercalate (List.replicate 1 "%v") ∧
    extraPrettyFormat
        { logLevel := LogLevel.Info, time := "", format := "", values := [Value.int 1],
          caller := "", valueType := valueType.valueTypeJSON, requestInfo := none } ≠
      "\n".intercalate (List.replicate 1 "%v") := by
  refine ⟨?_, ?_, ?_, ?_⟩ <;> decide

/-- C4, amended: for an entry with an empty format and `n` values the synthesized
template is `n` copies of the placeholder `%v`, each followed by the separator: for
`n ≥ 1` the placeholders joined by the separator plus one trailing separator. The
separator is a space for the file template, and for the console template a line break
in JSON mode and a space otherwise. For `n = 0` both templates are empty, so without
request metadata the full templates are the level templates alone. A non-empty format
is used unchanged for both destinations. -/
theorem synthesized_templates (l : Logger) (data : logTask) :
    (data.format = "" →
      extraFormat data = String.join (List.replicate data.values.length ("%v" ++ " ")) ∧
      extraPrettyFormat data =
        String.join (List.replicate data.values.length ("%v" ++ separator data)) ∧
      separator data = (if data.valueType = valueType.valueTypeJSON then "\n" else " ") ∧
      (data.values ≠ [] →
        extraFormat data =
          " ".intercalate (List.replicate data.values.length "%v") ++ " " ∧
        extraPrettyFormat data =
          (separator data).intercalate (List.replicate data.values.length "%v") ++
            separator data) ∧
      (data.values = [] →
        extraFormat data = "" ∧ extraPrettyFormat data = "" ∧
        (data.requestInfo = none →
          l.fullFormat data = l.format data ∧ l.fullFormatColor data = l.formatColor data))) ∧
    (data.format ≠ "" → extraFormat data = data.format ∧ extraPrettyFormat data = data.format) := by
  constructor
  · intro hf
    have h1 : extraFormat data =
        String.join (List.replicate data.values.length ("%v" ++ " ")) := by
      simp only [extraFormat, hf, if_true]
      exact synthesize_eq_join " " data.values
    have h2 : extraPrettyFormat data =
        String.join (List.replicate data.values.length ("%v" ++ separator data)) := by
      simp only [extraPrettyFormat, hf, if_true]
      exact synthesize_eq_join (separator data) data.values
    refine ⟨h1, h2, ?_, ?_, ?_⟩
    · cases hvt : data.valueType <;> simp [separator, hvt]
    · intro hne
      obtain ⟨n, hn⟩ : ∃ n, data.values.length = n + 1 :=
        Nat.exists_eq_succ_of_ne_zero (fun h0 => hne (List.length_eq_zero.mp h0))
      rw [h1, h2, hn]
      exact ⟨join_replicate_eq_intercalate " " "%v" n,
        join_replicate_eq_intercalate (separator data) "%v" n⟩
    · intro hnil
      have e1 : extraFormat data = "" := by rw [h1, hnil]; rfl
      have e2 : extraPrettyFormat data = "" := by rw [h2, hnil]; rfl
      refine ⟨e1, e2, ?_⟩
      intro hreq
      simp [Logger.fullFormat, Logger.fullFormatColor, hreq, e1, e2]
  · intro hf
    simp [extraFormat, extraPrettyFormat, hf]

/-- The amended C4 at entries with two values, with no value, and with a format. -/
theorem synthesized_templates_witness :
    extraFormat (sampleLogger.Info sampleEnv [Value.str "hello", Value.int 42]) =
      " ".intercalate (List.replicate 2 "%v") ++ " " ∧
    extraPrettyFormat (sampleLogger.InfoJSON sampleEnv [Value.str "hello", Value.int 42]) =
      "\n".intercalate (List.replicate 2 "%v") ++ "\n" ∧
    sampleLogger.fullFormat (sampleLogger.Info sampleEnv []) = "%s INFO %s " ∧
    extraFormat (sampleLogger.Infof sampleEnv "n=%d" [Value.int 42]) = "n=%d" :=
  ⟨((((synthesized_templates sampleLogger
        (sampleLogger.Info sampleEnv [Value.str "hello", Value.int 42])).1 rfl).2.2.2.1
      (by decide)).1),
   ((((synthesized_templates sampleLogger
        (sampleLogger.InfoJSON sampleEnv [Value.str "hello", Value.int 42])).1 rfl).2.2.2.1
      (by decide)).2),
   ((((synthesized_templates sampleLogger (sampleLogger.Info sampleEnv [])).1 rfl).2.2.2.2
      rfl).2.2 rfl).1,
   ((synthesized_templates sampleLogger
      (sampleLogger.Infof sampleEnv "n=%d" [Value.int 42])).2 (by decide)).1⟩

/-! ## Request metadata -/

/-- C5, refuted as stated: for the entry of `WarnWithEchoContext` the file template is
the metadata rendering, a space and the template built without metadata; it is not the
metadata rendering on a line of its own. -/
theorem metadata_file_template_not_own_line :
    sampleLogger.fullFormat
        (sampleLogger.WarnWithEchoContext sampleEnv { rendered := "GET /ping" }
          [Value.str "slow"]) =
      "GET /ping %s WARN %s %v " ∧
    sampleLogger.fullFormat (sampleLogger.Warn sampleEnv [Value.str "slow"]) =
      "%s WARN %s %v " ∧
    sampleLogger.fullFormat
        (sampleLogger.WarnWithEchoContext sampleEnv { rendered := "GET /ping" }
          [Value.str "slow"]) ≠
      "GET /ping" ++ "\n" ++
        sampleLogger.fullFormat (sampleLogger.Warn sampleEnv [Value.str "slow"]) := by
  refine ⟨?_, ?_, ?_⟩ <;> decide

/-- C5, amended: for an entry that carries request metadata, the console template is
the metadata rendering, a line break and the console template built without metadata,
and the file template is the metadata rendering, a single space and the file template
built without metadata; for an entry without request metadata the templates are the
level template followed by the value template. -/
theorem metadata_templates (l : Logger) (data : logTask) :
    (∀ r : RequestInfo, data.requestInfo = some r →
      data.formatRequestInfo = r.rendered ∧
      l.fullFormatColor data =
        data.formatRequestInfo ++ "\n" ++ l.fullFormatColor { data with requestInfo := none } ∧
      l.fullFormat data =
        data.formatRequestInfo ++ " " ++ l.fullFormat { data with requestInfo := none }) ∧
    (data.requestInfo = none →
      l.fullFormatColor data = l.formatColor data ++ extraPrettyFormat data ∧
      l.fullFormat data = l.format data ++ extraFormat data) := by
  constructor
  · intro r hr
    refine ⟨?_, ?_, ?_⟩
    · simp [logTask.formatRequestInfo, hr]
    · simp [Logger.fullFormatColor, hr, Logger.formatColor, extraPrettyFormat, separator]
    · simp [Logger.fullFormat, hr, Logger.format, extraFormat]
  · intro hnone
    simp [Logger.fullFormatColor, Logger.fullFormat, hnone]

/-- The amended C5 at the entry of `WarnWithEchoContext` and at the entry of `Warn`. -/
theorem metadata_templates_witness :
    (sampleLogger.fullFormatColor
        (sampleLogger.WarnWithEchoContext sampleEnv { rendered := "GET /ping" }
          [Value.str "slow"]) =
      "GET /ping" ++ "\n" ++
        sampleLogger.fullFormatColor (sampleLogger.Warn sampleEnv [Value.str "slow"]) ∧
    sampleLogger.fullFormat
        (sampleLogger.WarnWithEchoContext sampleEnv { rendered := "GET /ping" }
          [Value.str "slow"]) =
      "GET /ping" ++ " " ++
        sampleLogger.fullFormat (sampleLogger.Warn sampleEnv [Value.str "slow"])) ∧
    sampleLogger.fullFormat (sampleLogger.Warn sampleEnv [Value.str "slow"]) =
      sampleLogger.format (sampleLogger.Warn sampleEnv [Value.str "slow"]) ++
        extraFormat (sampleLogger.Warn sampleEnv [Value.str "slow"]) :=
  ⟨((metadata_templates sampleLogger
      (sampleLogger.WarnWithEchoContext sampleEnv { rendered := "GET /ping" }
        [Value.str "slow"])).1 { rendered := "GET /ping" } rfl).2,
   ((metadata_templates sampleLogger
      (sampleLogger.Warn sampleEnv [Value.str "slow"])).2 rfl).2⟩

/-! ## JSON mode -/

theorem jsonValues_foldl (j : JSONCodec) (vs : List Value) (a b : List Value) :
    vs.foldl
        (fun acc value =>
          (acc.1 ++ [Value.str (j.ToJSONString value)],
           acc.2 ++ [Value.str (j.ToPrettyJSONString value)]))
        (a, b) =
      (a ++ vs.map (fun v => Value.str (j.ToJSONString v)),
       b ++ vs.map (fun v => Value.str (j.ToPrettyJSONString v))) := by
  induction vs generalizing a b with
  | nil => simp
  | cons v rest ih => simp [List.foldl_cons, ih]

theorem jsonValues_eq_map (j : JSONCodec) (vs : List Value) :
    jsonValues j vs =
      (vs.map (fun v => Value.str (j.ToJSONString v)),
       vs.map (fun v => Value.str (j.ToPrettyJSONString v))) := by
  rw [jsonValues, jsonValues_foldl]
  simp

/-- C6: for a JSON-mode entry the loop body makes one console write whose arguments
are the timestamp, the caller and the pretty serialization of each value in order,
and, when the level is not excluded, one secondary-sink write whose arguments are the
timestamp, the caller and the compact serialization of each value in order; both
lists have `n + 2` elements and the serialization of the value at index `i` stands at
index `i + 2`. -/
theorem runBody_json_args (l : Logger) (j : JSONCodec) (data : logTask)
    (h : data.valueType = valueType.valueTypeJSON) :
    consoleWrites (l.runBody j data) =
      [Effect.writer (l.fullFormatColor data)
        (Value.str data.time :: Value.str data.caller ::
          data.values.map (fun v => Value.str (j.ToPrettyJSONString v)))] ∧
    (l.ignoreWriteFile data.logLevel = false →
      fileWrites (l.runBody j data) =
        [Effect.fileWriter (l.fullFormat data)
          (Value.str data.time :: Value.str data.caller ::
            data.values.map (fun v => Value.str (j.ToJSONString v)))]) ∧
    (Value.str data.time :: Value.str data.caller ::
        data.values.map (fun v => Value.str (j.ToPrettyJSONString v))).length =
      data.values.length + 2 ∧
    (Value.str data.time :: Value.str data.caller ::
        data.values.map (fun v => Value.str (j.ToJSONString v))).length =
      data.values.length + 2 ∧
    (∀ i : Nat,
      (Value.str data.time :: Value.str data.caller ::
          data.values.map (fun v => Value.str (j.ToPrettyJSONString v)))[i + 2]? =
        (data.values[i]?).map (fun v => Value.str (j.ToPrettyJSONString v)) ∧
      (Value.str data.time :: Value.str data.caller ::
          data.values.map (fun v => Value.str (j.ToJSONString v)))[i + 2]? =
        (data.values[i]?).map (fun v => Value.str (j.ToJSONString v))) := by
  refine ⟨?_, ?_, by simp, by simp, ?_⟩
  · by_cases hi : l.ignoreWriteFile data.logLevel = false <;>
    by_cases hn : l.notifier = true <;>
    simp [Logger.runBody, h, jsonValues_eq_map, consoleWrites, Effect.isWriter, hi, hn]
  · intro hi
    by_cases hn : l.notifier = true <;>
    simp [Logger.runBody, h, jsonValues_eq_map, fileWrites, Effect.isFileWriter, hi, hn]
  · intro i
    simp [List.getElem?_map]

/-- C6 at the entry of `InfoJSON("a", 1)` on the sample logger, with the lines the two
sinks render for it. -/
theorem runBody_json_args_witness :
    (sampleLogger.InfoJSON sampleEnv [Value.str "a", Value.int 1]).valueType =
      valueType.valueTypeJSON ∧
    consoleWrites (sampleLogger.runBody sampleCodec
        (sampleLogger.InfoJSON sampleEnv [Value.str "a", Value.int 1])) =
      [Effect.writer "%s <blue>INFO %s\n</blue>%v\n%v\n"
        [Value.str "2024-05-01 10:00:00 +07:00", Value.str "main.go:7",
          Value.str "a\n", Value.str "1\n"]] ∧
    fileWrites (sampleLogger.runBody sampleCodec
        (sampleLogger.InfoJSON sampleEnv [Value.str "a", Value.int 1])) =
      [Effect.fileWriter "%s INFO %s %v %v "
        [Value.str "2024-05-01 10:00:00 +07:00", Value.str "main.go:7",
          Value.str "a", Value.str "1"]] ∧
    (fileWrites (sampleLogger.runBody sampleCodec
        (sampleLogger.InfoJSON sampleEnv [Value.str "a", Value.int 1]))).map Effect.rendered =
      ["2024-05-01 10:00:00 +07:00 INFO main.go:7 a 1 "] :=
  ⟨rfl,
   (runBody_json_args sampleLogger sampleCodec
      (sampleLogger.InfoJSON sampleEnv [Value.str "a", Value.int 1]) rfl).1,
   (runBody_json_args sampleLogger sampleCodec
      (sampleLogger.InfoJSON sampleEnv [Value.str "a", Value.int 1]) rfl).2.1 (by decide),
   by decide⟩

/-! ## The dispatcher -/

theorem consoleWrites_flatMap_length (l : Logger) (j : JSONCodec) (ds : List logTask) :
    ds.length ≤ (consoleWrites (ds.flatMap (l.runBody j))).length := by
  induction ds with
  | nil => simp
  | cons d rest ih =>
    have h1 := (runBody_notifier_iff l j d).2
    simp only [List.flatMap_cons, consoleWrites, List.filter_append, List.length_append,
      List.length_cons] at h1 ih ⊢
    omega

theorem step_preserves (l : Logger) (j : JSONCodec) (s t : Dispatcher) (a : Action)
    (hs : s.step l j a = some t)
    (h : (s.consumer = Consumer.returned → s.cancelled = true) ∧
      (s.closed = true → s.cancelled = true) ∧
      s.accepted = s.dispatched ++ s.queue ∧
      s.effects = s.dispatched.flatMap (l.runBody j)) :
    (t.consumer = Consumer.returned → t.cancelled = true) ∧
    (t.closed = true → t.cancelled = true) ∧
    t.accepted = t.dispatched ++ t.queue ∧
    t.effects = t.dispatched.flatMap (l.runBody j) := by
  obtain ⟨h1, h2, h3, h4⟩ := h
  cases a with
  | send data =>
    simp only [Dispatcher.step] at hs
    split_ifs at hs with hc hcl hlen
    · cases hs; exact ⟨h1, h2, h3, h4⟩
    · cases hs
      refine ⟨h1, h2, ?_, h4⟩
      simp [h3]
  | cancel =>
    simp only [Dispatcher.step] at hs
    split_ifs at hs with hc
    cases hs
    exact ⟨fun _ => rfl, fun _ => rfl, h3, h4⟩
  | cleanup =>
    simp only [Dispatcher.step] at hs
    split_ifs at hs with hc hcl
    cases hs
    simp only [Bool.and_eq_true] at hcl
    exact ⟨h1, fun _ => hcl.1, h3, h4⟩
  | selectDone =>
    simp only [Dispatcher.step] at hs
    split_ifs at hs with hc hr
    cases hs
    exact ⟨fun _ => hr.2, h2, h3, h4⟩
  | selectQueue =>
    cases hq : s.queue with
    | nil =>
      simp only [Dispatcher.step, hq] at hs
      split_ifs at hs with hc hr hcl
      cases hs
      refine ⟨?_, h2, ?_, h4⟩
      · intro hx; cases hx
      · simpa [hq] using h3
    | cons d rest =>
      simp only [Dispatcher.step, hq] at hs
      split_ifs at hs with hc hr
      cases hs
      refine ⟨h1, h2, ?_, ?_⟩
      · simp [h3, hq]
      · simp [h4, List.flatMap_append]

theorem exec_preserves (l : Logger) (j : JSONCodec) (acts : List Action) :
    ∀ s t : Dispatcher, s.exec l j acts = some t →
      ((s.consumer = Consumer.returned → s.cancelled = true) ∧
        (s.closed = true → s.cancelled = true) ∧
        s.accepted = s.dispatched ++ s.queue ∧
        s.effects = s.dispatched.flatMap (l.runBody j)) →
      ((t.consumer = Consumer.returned → t.cancelled = true) ∧
        (t.closed = true → t.cancelled = true) ∧
        t.accepted = t.dispatched ++ t.queue ∧
        t.effects = t.dispatched.flatMap (l.runBody j)) := by
  induction acts with
  | nil =>
    intro s t hs h
    simp only [Dispatcher.exec, Option.some.injEq] at hs
    subst hs
    exact h
  | cons a rest ih =>
    intro s t hs h
    simp only [Dispatcher.exec] at hs
    cases hstep : s.step l j a with
    | none => rw [hstep] at hs; cases hs
    | some u =>
      rw [hstep] at hs
      exact ih u t hs (step_preserves l j s u a hstep h)

/-- A send on a closed queue is enabled and panics: the state records the panic and
the entry is neither queued nor accepted. -/
theorem step_send_closed (l : Logger) (j : JSONCodec) (s : Dispatcher) (data : logTask)
    (hc : s.crashed = false) (hcl : s.closed = true) :
    s.step l j (Action.send data) = some { s with sendPanicked := true } := by
  simp [Dispatcher.step, hc, hcl]

/-- C7, refuted as stated: after an entry is sent and cancellation is requested, the
`select` of the consumer may take `case <-ctx.Done()`; the loop has then returned
while the queue still holds the entry and is not closed, and nothing was written. -/
theorem consumer_exits_with_queued_entry :
    (Dispatcher.init.exec sampleLogger sampleCodec
        [Action.send (sampleLogger.Info sampleEnv [Value.str "hello"]), Action.cancel,
          Action.selectDone]).map
        (fun s => (s.consumer, s.queue, s.closed, s.accepted, s.effects)) =
      some (Consumer.returned, [sampleLogger.Info sampleEnv [Value.str "hello"]], false,
        [sampleLogger.Info sampleEnv [Value.str "hello"]], []) := by
  decide

/-- C7, amended: in every state reached by the step relation from the initial state,
the consumer loop has returned only if cancellation has been requested (the queue need
be neither empty nor closed); the entries accepted by the queue are the entries the
consumer received followed by the entries still queued; the calls made are those of
the loop body on the received entries in order, so each received entry has its console
write, while entries still queued when the loop returns are never written. -/
theorem consumer_exit_only_after_cancel (l : Logger) (j : JSONCodec) (acts : List Action)
    (s : Dispatcher) (h : Dispatcher.init.exec l j acts = some s) :
    (s.consumer = Consumer.returned → s.cancelled = true) ∧
    (s.closed = true → s.cancelled = true) ∧
    s.accepted = s.dispatched ++ s.queue ∧
    s.effects = s.dispatched.flatMap (l.runBody j) ∧
    s.dispatched.length ≤ (consoleWrites s.effects).length := by
  have hinv := exec_preserves l j acts Dispatcher.init s h
    ⟨by simp [Dispatcher.init], by simp [Dispatcher.init], by simp [Dispatcher.init],
      by simp [Dispatcher.init]⟩
  refine ⟨hinv.1, hinv.2.1, hinv.2.2.1, hinv.2.2.2, ?_⟩
  rw [hinv.2.2.2]
  exact consoleWrites_flatMap_length l j s.dispatched

/-- The amended C7 on `sampleRun`, which ends with the consumer returned and the
second entry still queued. -/
theorem consumer_exit_only_after_cancel_witness :
    Dispatcher.init.exec sampleLogger sampleCodec sampleRun = some sampleRunEnd ∧
    (sampleRunEnd.consumer = Consumer.returned → sampleRunEnd.cancelled = true) ∧
    (sampleRunEnd.closed = true → sampleRunEnd.cancelled = true) ∧
    sampleRunEnd.accepted = sampleRunEnd.dispatched ++ sampleRunEnd.queue ∧
    sampleRunEnd.effects = sampleRunEnd.dispatched.flatMap (sampleLogger.runBody sampleCodec) ∧
    sampleRunEnd.dispatched.length ≤ (consoleWrites sampleRunEnd.effects).length :=
  ⟨by decide,
   consumer_exit_only_after_cancel sampleLogger sampleCodec sampleRun sampleRunEnd
     (by decide)⟩

/-- C8, at the call `Info("late")` made after cancellation and `cleanup`: the channel
send of the facade call runs on the closed queue and panics; the entry is neither
queued nor accepted, and no sink is written. -/
theorem send_after_cleanup_panics :
    (Dispatcher.init.exec sampleLogger sampleCodec
        [Action.cancel, Action.cleanup]).map (fun s => (s.closed, s.crashed)) =
      some (true, false) ∧
    (Dispatcher.init.exec sampleLogger sampleCodec
        [Action.cancel, Action.cleanup,
          Action.send (sampleLogger.Info sampleEnv [Value.str "late"])]).map
        (fun s => (s.sendPanicked, s.queue, s.accepted, s.effects)) =
      some (true, [], [], []) := by
  constructor <;> decide

/-! ## The receive of the consumer on shutdown -/

/-- The step `selectQueue` in terms of the received value: on an entry the loop body
runs on it, on `nil` the consumer panics at the first field access. -/
theorem step_selectQueue_of_receive (l : Logger) (j : JSONCodec) (s : Dispatcher)
    (hc : s.crashed = false) (hr : s.consumer = Consumer.running) :
    (∀ d, s.receive = some (some d) →
      ∃ rest, s.queue = d :: rest ∧
        s.step l j Action.selectQueue =
          some { s with queue := rest, dispatched := s.dispatched ++ [d],
                        effects := s.effects ++ l.runBody j d }) ∧
    (s.receive = some none →
      s.step l j Action.selectQueue = some { s with consumer := Consumer.panicked }) ∧
    (s.receive = none → s.step l j Action.selectQueue = none) := by
  cases hq : s.queue with
  | nil =>
    by_cases hcl : s.closed = true <;>
    simp [Dispatcher.receive, Dispatcher.step, hq, hc, hr, hcl]
  | cons d rest =>
    simp [Dispatcher.receive, Dispatcher.step, hq, hc, hr]

/-- While the queue is open the consumer never receives `nil`: the receive yields a
queued entry or blocks. -/
theorem receive_ne_nil_of_open (s : Dispatcher) (h : s.closed = false) :
    s.receive ≠ some none := by
  cases hq : s.queue <;> simp [Dispatcher.receive, hq, h]

/-- C11, at the run in which cancellation is requested, `cleanup` closes the queue and
the `select` of the consumer then takes the queue case: the state before the receive
is reachable and not crashed, the receive yields `nil`, and the loop body panics at
`data.format`, which stops the process. The same happens after a queued entry has been
dispatched. -/
theorem consumer_receives_nil_after_cleanup :
    (Dispatcher.init.exec sampleLogger sampleCodec [Action.cancel, Action.cleanup]).map
        (fun s => (s.crashed, s.consumer, s.closed, s.receive)) =
      some (false, Consumer.running, true, some none) ∧
    (Dispatcher.init.exec sampleLogger sampleCodec
        [Action.cancel, Action.cleanup, Action.selectQueue]).map
        (fun s => (s.consumer, s.crashed)) =
      some (Consumer.panicked, true) ∧
    (Dispatcher.init.exec sampleLogger sampleCodec
        [Action.send (sampleLogger.Info sampleEnv [Value.str "last"]), Action.cancel,
          Action.cleanup, Action.selectQueue, Action.selectQueue]).map
        (fun s => (s.consumer, s.crashed, s.dispatched)) =
      some (Consumer.panicked, true, [sampleLogger.Info sampleEnv [Value.str "last"]]) := by
  refine ⟨?_, ?_, ?_⟩ <;> decide

/-! ## `fileWithLineNum` -/

theorem caller_string_ne_empty (file : String) (line : Int) :
    file ++ ":" ++ FormatInt line ≠ "" := by
  intro h
  have hd := congrArg String.data h
  simp [String.data_append] at hd

theorem fileWithLineNumFrom_eq_findSome (Caller : Nat → Option (String × Int)) (n : Nat) :
    ∀ i : Nat, fileWithLineNumFrom Caller n i =
      match (List.range' i n).findSome? Caller with
      | some (file, line) => file ++ ":" ++ FormatInt line
      | none => "" := by
  induction n with
  | zero => intro i; simp [fileWithLineNumFrom]
  | succ n ih =>
    intro i
    cases hc : Caller i with
    | none => simp [fileWithLineNumFrom, hc, List.range'_succ, ih (i + 1)]
    | some fl =>
      obtain ⟨file, line⟩ := fl
      simp [fileWithLineNumFrom, hc, List.range'_succ]

theorem fileWithLineNumFrom_first (Caller : Nat → Option (String × Int)) (n : Nat) :
    ∀ (i k : Nat) (file : String) (line : Int), i ≤ k → k < i + n →
      Caller k = some (file, line) → (∀ m, i ≤ m → m < k → Caller m = none) →
      fileWithLineNumFrom Caller n i = file ++ ":" ++ FormatInt line := by
  induction n with
  | zero => intro i k file line h1 h2; omega
  | succ n ih =>
    intro i k file line h1 h2 hk hbefore
    by_cases hik : i = k
    · subst hik
      simp [fileWithLineNumFrom, hk]
    · have hnone : Caller i = none := hbefore i (le_refl i) (by omega)
      simp only [fileWithLineNumFrom, hnone]
      exact ih (i + 1) k file line (by omega) (by omega) hk
        (fun m hm1 hm2 => hbefore m (by omega) hm2)

theorem fileWithLineNumFrom_eq_empty_iff (Caller : Nat → Option (String × Int)) (n : Nat) :
    ∀ i : Nat, fileWithLineNumFrom Caller n i = "" ↔
      ∀ k, i ≤ k → k < i + n → Caller k = none := by
  induction n with
  | zero =>
    intro i
    simp only [fileWithLineNumFrom, true_iff]
    intro k h1 h2
    omega
  | succ n ih =>
    intro i
    cases hc : Caller i with
    | none =>
      simp only [fileWithLineNumFrom, hc, ih (i + 1)]
      constructor
      · intro h k h1 h2
        by_cases hik : k = i
        · rw [hik]; exact hc
        · exact h k (by omega) (by omega)
      · intro h k h1 h2
        exact h k (by omega) (by omega)
    | some fl =>
      obtain ⟨file, line⟩ := fl
      simp only [fileWithLineNumFrom, hc]
      constructor
      · intro h
        exact absurd h (caller_string_ne_empty file line)
      · intro h
        have := h i (le_refl i) (by omega)
        rw [hc] at this
        cases this

theorem fileWithLineNumFrom_congr (C1 C2 : Nat → Option (String × Int)) (n : Nat) :
    ∀ i : Nat, (∀ k, i ≤ k → k < i + n → C2 k = C1 k) →
      fileWithLineNumFrom C2 n i = fileWithLineNumFrom C1 n i := by
  induction n with
  | zero => intro i _; simp [fileWithLineNumFrom]
  | succ n ih =>
    intro i h
    have hi : C2 i = C1 i := h i (le_refl i) (by omega)
    simp only [fileWithLineNumFrom, hi]
    cases C1 i with
    | none => exact ih (i + 1) (fun k h1 h2 => h k (by omega) (by omega))
    | some fl => rfl

/-- C9: `fileWithLineNum` returns `file:line` (line in decimal) for the first frame
among the 13 frames 2, 3, .., 14 that resolves; it returns the empty string exactly
when none of these frames resolves; and its result depends on no frame outside this
window. -/
theorem fileWithLineNum_spec (Caller : Nat → Option (String × Int)) :
    (fileWithLineNum Caller =
      match (List.range' 2 13).findSome? Caller with
      | some (file, line) => file ++ ":" ++ FormatInt line
      | none => "") ∧
    (∀ (i : Nat) (file : String) (line : Int), 2 ≤ i → i < 15 →
      Caller i = some (file, line) → (∀ k, 2 ≤ k → k < i → Caller k = none) →
      fileWithLineNum Caller = file ++ ":" ++ FormatInt line) ∧
    (fileWithLineNum Caller = "" ↔ ∀ i, 2 ≤ i → i < 15 → Caller i = none) ∧
    (∀ Other : Nat → Option (String × Int),
      (∀ i, 2 ≤ i → i < 15 → Other i = Caller i) →
      fileWithLineNum Other = fileWithLineNum Caller) := by
  refine ⟨?_, ?_, ?_, ?_⟩
  · exact fileWithLineNumFrom_eq_findSome Caller 13 2
  · intro i file line h1 h2 hc hb
    exact fileWithLineNumFrom_first Caller 13 2 i file line h1 (by omega) hc hb
  · exact fileWithLineNumFrom_eq_empty_iff Caller 13 2
  · intro Other h
    exact fileWithLineNumFrom_congr Caller Other 13 2 (fun k h1 h2 => h k h1 (by omega))

/-- C9 on a stack whose frames 2 and 3 do not resolve and whose frame 4 does, and on a
stack that resolves only from frame 15 on. -/
theorem fileWithLineNum_spec_witness :
    fileWithLineNum (fun i => if 4 ≤ i then some ("handler.go", (i : Int) + 30) else none) =
      "handler.go" ++ ":" ++ FormatInt 34 ∧
    fileWithLineNum (fun i => if 4 ≤ i then some ("handler.go", (i : Int) + 30) else none) =
      "handler.go:34" ∧
    fileWithLineNum (fun i => if 15 ≤ i then some ("deep.go", 1) else none) = "" :=
  ⟨(fileWithLineNum_spec
      (fun i => if 4 ≤ i then some ("handler.go", (i : Int) + 30) else none)).2.1
      4 "handler.go" 34 (by decide) (by decide) (by decide)
      (fun k h1 h2 => by
        have h3 : ¬ 4 ≤ k := by omega
        simp [h3]),
   by decide,
   (fileWithLineNum_spec (fun i => if 15 ≤ i then some ("deep.go", 1) else none)).2.2.1.mpr
      (fun i _ h2 => by
        have h3 : ¬ 15 ≤ i := by omega
        simp [h3])⟩

/-! ## `IntRange` -/

theorem wrap64_of_mem (x : Int) (h1 : -2 ^ 63 ≤ x) (h2 : x < 2 ^ 63) : wrap64 x = x := by
  unfold wrap64
  have h3 : (x + 2 ^ 63) % 2 ^ 64 = x + 2 ^ 63 :=
    Int.emod_eq_of_lt (by omega) (by omega)
  omega

/-- On arguments `min < max` of the 64-bit range whose difference does not overflow,
with a random source that delivers `b` in `[0, max - min)`, `IntRange` returns
`min + b`, which lies in `[min, max)`; on equal arguments it returns that value. -/
theorem IntRange_of_lt (randInt : Int → Option Int) (min max b : Int)
    (hmin : -2 ^ 63 ≤ min) (hmax : max < 2 ^ 63) (hlt : min < max)
    (hdiff : max - min < 2 ^ 63) (hr : randInt (max - min) = some b)
    (hb0 : 0 ≤ b) (hb1 : b < max - min) :
    IntRange randInt min max = Except.ok (min + b) ∧ min ≤ min + b ∧ min + b < max := by
  have hne : ¬ max = min := by omega
  have hgt : max > min := hlt
  have hw1 : wrap64 (max - min) = max - min := wrap64_of_mem _ (by omega) hdiff
  have hw2 : wrap64 b = b := wrap64_of_mem _ (by omega) (by omega)
  have hw3 : wrap64 (min + b) = min + b := wrap64_of_mem _ (by omega) (by omega)
  have hpos : ¬ max - min ≤ 0 := by omega
  refine ⟨?_, by omega, by omega⟩
  simp [IntRange, hne, hgt, hw1, hpos, hr, hw2, hw3]

theorem IntRange_of_eq (randInt : Int → Option Int) (m : Int) :
    IntRange randInt m m = Except.ok m := by
  simp [IntRange]

/-- C10, at `IntRange(10, 5)` and at `IntRange(5, 10)` with a failing random source:
the function returns 0, which does not lie between 5 and 10. With the arguments
swapped no branch of the `switch` assigns the result; with a failing source the
branch leaves the result unassigned. -/
theorem IntRange_out_of_range (randInt : Int → Option Int) :
    IntRange randInt 10 5 = Except.ok 0 ∧
    IntRange (fun _ => none) 5 10 = Except.ok 0 ∧
    ¬ ((5 : Int) ≤ 0 ∧ (0 : Int) ≤ 10) := by
  refine ⟨?_, ?_, by omega⟩
  · simp [IntRange]
  · simp [IntRange, wrap64]

end Gocore
